import Mathlib

/-!
Shallow embedding of the socketio-server core (src/socketio-server/src/socket.rs
and src/socketio-server/src/operators.rs): the broadcast-operators builder, the
per-connection message-handler dispatch, and the acknowledgement correlation
table.  Wire payloads (serde_json::Value) are modelled by an inductive JSON
value type; binary frames (Vec<Vec<u8>>) by lists of byte lists; the i64 ack
counter by Int with explicit two's-complement wrapping.
-/

/-- Model of serde_json::Value: a JSON-like payload. -/
inductive Value where
  | null : Value
  | bool (b : Bool) : Value
  | num (n : Int) : Value
  | str (s : String) : Value
  | arr (l : List Value) : Value
  | obj (fields : List (String × Value)) : Value

/-- A binary frame: Vec<u8>, a byte sequence (bytes are opaque here, no
arithmetic is ever done on them). -/
abbrev Frame := List Nat

/-- Vec<Vec<u8>>: the ordered list of binary frames attached to a packet. -/
abbrev Frames := List Frame

/-- Room identifier (operators.rs: `pub type Room = String`). -/
abbrev Room := String

/-- operators.rs `BroadcastFlags`: Local, Broadcast or Timeout(duration);
Duration modelled as a Nat (e.g. milliseconds). -/
inductive BroadcastFlags where
  | Local : BroadcastFlags
  | Broadcast : BroadcastFlags
  | Timeout (d : Nat) : BroadcastFlags
deriving DecidableEq

/-- HashSet insert on the flag set, modelled as a duplicate-free list: presence
only matters (spec: set semantics). -/
def insertFlag (f : BroadcastFlags) (l : List BroadcastFlags) : List BroadcastFlags :=
  if f ∈ l then l else f :: l

/-- itertools `unique()` over one iterator, with its seen-set: keeps the first
occurrence of each element of the input, dropping later repeats.  `seen` is the
set of elements already produced (a fresh set per call, exactly as the
iterator adapter allocates a fresh HashSet). -/
def uniqueAux : List Room → List Room → List Room
  | [], _ => []
  | x :: xs, seen => if x ∈ seen then uniqueAux xs seen else x :: uniqueAux xs (x :: seen)

/-- itertools `unique()`: dedup a single call's room iterator, first occurrence
kept, starting from an empty seen-set. -/
def uniqueFirst (l : List Room) : List Room := uniqueAux l []

/-- operators.rs `BroadcastOptions`. -/
structure BroadcastOptions where
  flags : List BroadcastFlags
  rooms : List Room
  except : List Room
  sid : Int
deriving DecidableEq

/-- `BroadcastOptions::new(sid)`. -/
def BroadcastOptions.new (sid : Int) : BroadcastOptions :=
  { flags := [], rooms := [], except := [], sid := sid }

/-- Outgoing packet shapes, as built by the Packet constructors used in the
core (`Packet::event`, `Packet::bin_event`, `Packet::ack`, `Packet::bin_ack`).
Modelled from the spec:
the constructors live in packet.rs (outside the given sources); §6 gives the
wire shapes — event (ns, name, value, optional ack id), binary event with an
embedded frame count, ack (ns, value, ack id[, frame count]). -/
inductive PacketOut where
  | event (ns : String) (e : String) (data : Value) : PacketOut
  | binEvent (ns : String) (e : String) (data : Value) (count : Nat) : PacketOut
  | ack (ns : String) (data : Value) (ackId : Int) : PacketOut
  | binAck (ns : String) (data : Value) (count : Nat) (ackId : Int) : PacketOut

/-- operators.rs `Operators`: the ephemeral broadcast builder.  The namespace
reference is modelled by the only datum the builder reads from it, its path. -/
structure Operators where
  opts : BroadcastOptions
  ns : String
  binary : Option Frames

/-- `Operators::new(ns, sid)`. -/
def Operators.new (ns : String) (sid : Int) : Operators :=
  { opts := BroadcastOptions.new sid, ns := ns, binary := none }

/-- `Operators::to`: `self.opts.rooms.extend(rooms.into_room_iter().unique())`
then insert the Broadcast flag.  The RoomParam argument is taken already
normalized to its room list (the Vec<Room> instance; the other instances
produce one-element or mapped lists). -/
def Operators.to (o : Operators) (rooms : List Room) : Operators :=
  { o with opts := { o.opts with
      rooms := o.opts.rooms ++ uniqueFirst rooms,
      flags := insertFlag BroadcastFlags.Broadcast o.opts.flags } }

/-- `Operators::except`: same shape as `to`, extending the exclusion list. -/
def Operators.except (o : Operators) (rooms : List Room) : Operators :=
  { o with opts := { o.opts with
      except := o.opts.except ++ uniqueFirst rooms,
      flags := insertFlag BroadcastFlags.Broadcast o.opts.flags } }

/-- `Operators::local`. -/
def Operators.localOp (o : Operators) : Operators :=
  { o with opts := { o.opts with flags := insertFlag BroadcastFlags.Local o.opts.flags } }

/-- `Operators::broadcast`. -/
def Operators.broadcast (o : Operators) : Operators :=
  { o with opts := { o.opts with flags := insertFlag BroadcastFlags.Broadcast o.opts.flags } }

/-- `Operators::timeout`. -/
def Operators.timeoutOp (o : Operators) (d : Nat) : Operators :=
  { o with opts := { o.opts with flags := insertFlag (BroadcastFlags.Timeout d) o.opts.flags } }

/-- `Operators::bin`: `self.binary = Some(binary)` — replaces any previously
attached frames. -/
def Operators.bin (o : Operators) (binary : Frames) : Operators :=
  { o with binary := some binary }

/-- `Operators::get_packet`: binary-event packet carrying `bin.len()` when
frames are attached, plain event packet otherwise.  Serialization of the data
(`serde_json::to_value`) is the identity here since the data is already a
`Value`. -/
def Operators.get_packet (o : Operators) (event : String) (data : Value) : PacketOut :=
  match o.binary with
  | some bin => PacketOut.binEvent o.ns event data bin.length
  | none => PacketOut.event o.ns event data

/-- `Operators::emit`: builds the packet and hands (packet, binary frames,
accumulated options) to `adapter.broadcast`.  Modelled as returning exactly
that triple. -/
def Operators.emit (o : Operators) (event : String) (data : Value) :
    PacketOut × Option Frames × BroadcastOptions :=
  (o.get_packet event data, o.binary, o.opts)

-- Socket-side model (socket.rs).

/-- Errors raised by the dispatch path (crate::errors::Error): the only failure
the message-handler call path itself produces synchronously is a serde
deserialization failure; handler bodies may propagate their own errors. -/
inductive Error where
  | Serde : Error
  | Handler (msg : String) : Error

/-- Errors of an acknowledgement wait (crate::errors::AckError): the timeout
elapsed, the oneshot sender was dropped, or the reply did not deserialize. -/
inductive AckErr where
  | Timeout : AckErr
  | Closed : AckErr
  | Serde : AckErr
deriving DecidableEq

/-- socket.rs `Ack<T>`: the four result shapes a handler may return. -/
inductive Ack (T : Type) where
  | Bin (b : Frames) : Ack T
  | Data (d : T) : Ack T
  | DataBin (d : T) (b : Frames) : Ack T
  | None : Ack T

/-- A packet handed to the transport by the socket's send path, together with
any out-of-band binary payload (`client.emit` carries none, `client.emit_bin`
carries the frames). -/
structure Sent where
  packet : PacketOut
  payload : Option Frames

/-- `Socket::send_ack`: `send(Packet::ack(ns, data, ack_id), None)`. -/
def send_ack (ns : String) (ackId : Int) (data : Value) : Sent :=
  { packet := PacketOut.ack ns data ackId, payload := none }

/-- `Socket::send_bin_ack`:
`client.emit_bin(sid, Packet::bin_ack(ns, data, bin.len(), ack_id), bin)`. -/
def send_bin_ack (ns : String) (ackId : Int) (data : Value) (bin : Frames) : Sent :=
  { packet := PacketOut.binAck ns data bin.length ackId, payload := some bin }

/-- The ack translation at the end of `MessageHandler::call`: what the spawned
task sends once the handler future resolves `Ok`, for a message that carried an
ack id.  `Ack::None` sends nothing (`Ok(())` in the match). -/
def ackSend {R : Type} (ns : String) (ackId : Int) (encode : R → Value) :
    Ack R → List Sent
  | Ack.Bin b => [send_bin_ack ns ackId (Value.obj []) b]
  | Ack.Data d => [send_ack ns ackId (encode d)]
  | Ack.DataBin d b => [send_bin_ack ns ackId (encode d) b]
  | Ack.None => []

/-- The payload-compatibility rewrite at the top of `MessageHandler::call`:
a one-element JSON array is unwrapped to its single element (with `Null` as
the degenerate fallback of `unwrap_or`), every other value passes through. -/
def unwrapSingle : Value → Value
  | Value.arr l => if l.length = 1 then l.headD Value.null else Value.arr l
  | v => v

/-- The tail of `MessageHandler::call`, after the singleton-array unwrap:
deserialize the (already unwrapped) payload into the declared parameter shape
(`decode`, a partial function standing for `serde_json::from_value::<Param>`),
run the handler, and — when the inbound message carried an ack id — translate
an `Ok` result into the ack send, while an `Err` result sends nothing.  The
returned list collects the packets the spawned task eventually hands to the
transport; the synchronous `Result<(), Error>` of `call` is the `Except` layer
(it only fails on deserialization). -/
def dispatchDecoded {P R : Type} (ns : String) (decode : Value → Option P)
    (handler : P → Option Frames → Except Error (Ack R)) (encode : R → Value)
    (v : Value) (p : Option Frames) (ack_id : Option Int) :
    Except Error (List Sent) :=
  match decode v with
  | none => Except.error Error.Serde
  | some param =>
    Except.ok (match ack_id with
      | some i =>
        match handler param p with
        | Except.ok a => ackSend ns i encode a
        | Except.error _ => []
      | none => [])

/-- `MessageHandler::call`: unwrap a singleton array payload, then deserialize
and dispatch. -/
def messageHandlerCall {P R : Type} (ns : String) (decode : Value → Option P)
    (handler : P → Option Frames → Except Error (Ack R)) (encode : R → Value)
    (v : Value) (p : Option Frames) (ack_id : Option Int) :
    Except Error (List Sent) :=
  dispatchDecoded ns decode handler encode (unwrapSingle v) p ack_id

/-- The type-erased handler stored in the connection's handler table
(`Box<dyn MessageCaller>`): the interface left after `MessageHandler` is boxed. -/
abbrev ErasedHandler := Value → Option Frames → Option Int → Except Error (List Sent)

/-- Per-connection mutable state of socket.rs `Socket`: the handler table, the
pending-ack table (only the key set matters — each key owns a oneshot sender)
and the atomic ack counter. -/
structure SocketState where
  handlers : List (String × ErasedHandler)
  ackMessage : List Int
  ackCounter : Int

/-- `Socket::new`: empty tables, ack counter 0. -/
def SocketState.new : SocketState :=
  { handlers := [], ackMessage := [], ackCounter := 0 }

/-- Two's-complement wrap into the i64 range, the overflow behaviour of the
AtomicI64 `fetch_add` (and of release-mode `+ 1`). -/
def wrapI64 (x : Int) : Int := (x + 2 ^ 63) % 2 ^ 64 - 2 ^ 63

/-- HashMap insert restricted to the key set: inserting an existing key
replaces its value and leaves the key set unchanged. -/
def insertKey (k : Int) (l : List Int) : List Int :=
  if k ∈ l then l else k :: l

/-- Resolution oracle for one ack wait: `none` when the deadline elapses before
anything arrives, `some none` when the oneshot sender is dropped, and
`some (some (v, frames))` when a resolution is delivered in time. -/
abbrev Resolution := Option (Option (Value × Option Frames))

/-- The transmission performed by `send_with_ack`: the outgoing packet with
the ack id stamped onto it (`packet.inner.set_ack_id(ack)`), plus the optional
binary payload.
Modelled from the spec: `set_ack_id` lives in packet.rs (outside the given
sources); per §6 an event packet carries an optional ack id, so stamping is
recorded as the id field next to the base packet. -/
structure StampedSent where
  packet : PacketOut
  stampedAckId : Int
  payload : Option Frames

/-- `Socket::send_with_ack`: draw the next ack id from the atomic counter
(`fetch_add(1) + 1`), register the oneshot sender under that id, stamp the id
onto the packet and send it, then wait.  The function returns the state it
leaves behind, the issued id, the stamped packet as sent, and the call's
result.  Note that no branch removes the registered entry from `ackMessage`:
on a timeout the call returns `Err(Timeout)` with the entry still present. -/
def sendWithAck {V : Type} (deser : Value → Option V) (s : SocketState)
    (packet : PacketOut) (payload : Option Frames) (resolution : Resolution) :
    SocketState × Int × StampedSent × Except AckErr (V × Option Frames) :=
  let ack := wrapI64 (s.ackCounter + 1)
  let s' : SocketState :=
    { s with ackCounter := wrapI64 (s.ackCounter + 1),
             ackMessage := insertKey ack s.ackMessage }
  let out : StampedSent := { packet := packet, stampedAckId := ack, payload := payload }
  match resolution with
  | none => (s', ack, out, Except.error AckErr.Timeout)
  | some none => (s', ack, out, Except.error AckErr.Closed)
  | some (some (v, bv)) =>
    match deser v with
    | some x => (s', ack, out, Except.ok (x, bv))
    | none => (s', ack, out, Except.error AckErr.Serde)

/-- A delivery made by `recv_ack`/`recv_bin_ack` to a pending waiter: the ack
id whose oneshot sender was taken from the table, and the (payload, frames)
pair pushed through it (`tx.send(..)` — `.ok()` discards a failure if the
waiter is already gone, the send attempt itself is what is recorded). -/
structure Delivery where
  ackId : Int
  data : Value
  bin : Option Frames

/-- socket.rs `BinaryPacket` (payload of binary events/acks): the JSON data
plus the attached frames. -/
structure BinaryPacket where
  data : Value
  bin : Frames

/-- `Socket::recv_event`: look the event name up in the handler table; no
handler means silently return `Ok(())`; otherwise run the erased handler's
`call` with no binary payload.  Returns the state left behind, the synchronous
result and the packets the dispatched work eventually sends. -/
def recvEvent (s : SocketState) (e : String) (data : Value) (ack : Option Int) :
    SocketState × Except Error Unit × List Sent :=
  match s.handlers.lookup e with
  | some h =>
    match h data none ack with
    | Except.ok sent => (s, Except.ok (), sent)
    | Except.error err => (s, Except.error err, [])
  | none => (s, Except.ok (), [])

/-- `Socket::recv_bin_event`: same as `recv_event` with the binary packet's
data and frames passed to the handler. -/
def recvBinEvent (s : SocketState) (e : String) (packet : BinaryPacket)
    (ack : Option Int) : SocketState × Except Error Unit × List Sent :=
  match s.handlers.lookup e with
  | some h =>
    match h packet.data (some packet.bin) ack with
    | Except.ok sent => (s, Except.ok (), sent)
    | Except.error err => (s, Except.error err, [])
  | none => (s, Except.ok (), [])

/-- `Socket::recv_ack`: `ack_message.remove(&ack)` — when the id is pending,
its entry leaves the table and the payload is sent to the waiter (frames
`None`); otherwise nothing happens.  Returns `Ok(())` in both cases. -/
def recvAck (s : SocketState) (data : Value) (ack : Int) :
    SocketState × Except Error Unit × Option Delivery :=
  if ack ∈ s.ackMessage then
    ({ s with ackMessage := s.ackMessage.erase ack }, Except.ok (),
      some { ackId := ack, data := data, bin := none })
  else (s, Except.ok (), none)

/-- `Socket::recv_bin_ack`: as `recv_ack`, delivering the binary packet's data
together with `Some(frames)`. -/
def recvBinAck (s : SocketState) (packet : BinaryPacket) (ack : Int) :
    SocketState × Except Error Unit × Option Delivery :=
  if ack ∈ s.ackMessage then
    ({ s with ackMessage := s.ackMessage.erase ack }, Except.ok (),
      some { ackId := ack, data := packet.data, bin := some packet.bin })
  else (s, Except.ok (), none)

/-- socket.rs `PacketData`, restricted to what `Socket::recv` matches on: the
four admissible inbound kinds, plus a stand-in for every other kind.
Modelled from the spec: the full enum lives in packet.rs (outside the given
sources); §4.3 states that exactly four kinds are admissible at this layer and
any other kind is a protocol invariant violation handled upstream, so the
remaining variants are collapsed into `Other`. -/
inductive PacketData where
  | Event (e : String) (data : Value) (ack : Option Int) : PacketData
  | EventAck (data : Value) (ackId : Int) : PacketData
  | BinaryEvent (e : String) (packet : BinaryPacket) (ack : Option Int) : PacketData
  | BinaryAck (packet : BinaryPacket) (ackId : Int) : PacketData
  | Other : PacketData

/-- The four admissible inbound packet kinds of §4.3. -/
def PacketData.admissible : PacketData → Bool
  | PacketData.Other => false
  | _ => true

/-- Combined outcome of one inbound dispatch. -/
structure RecvOutcome where
  state : SocketState
  result : Except Error Unit
  sent : List Sent
  delivered : Option Delivery

/-- `Socket::recv`: route each admissible packet kind to its handler;
`unreachable!()` on any other kind is modelled as `none` (a panic — no
outcome). -/
def recv (s : SocketState) (p : PacketData) : Option RecvOutcome :=
  match p with
  | PacketData.Event e data ack =>
    let r := recvEvent s e data ack
    some { state := r.1, result := r.2.1, sent := r.2.2, delivered := none }
  | PacketData.EventAck data ackId =>
    let r := recvAck s data ackId
    some { state := r.1, result := r.2.1, sent := [], delivered := r.2.2 }
  | PacketData.BinaryEvent e packet ack =>
    let r := recvBinEvent s e packet ack
    some { state := r.1, result := r.2.1, sent := r.2.2, delivered := none }
  | PacketData.BinaryAck packet ackId =>
    let r := recvBinAck s packet ackId
    some { state := r.1, result := r.2.1, sent := [], delivered := r.2.2 }
  | PacketData.Other => none

/-- A trace of `n` successive `send_with_ack` calls on one connection, none of
which receives a resolution (the resolution does not influence id issuance or
registration).  Returns the final state and the issued ack ids in call order. -/
def issueTrace (s : SocketState) : Nat → SocketState × List Int
  | 0 => (s, [])
  | Nat.succ n =>
    let r := sendWithAck (V := Value) some s (PacketOut.event "/" "e" Value.null) none none
    let rest := issueTrace r.1 n
    (rest.1, r.2.1 :: rest.2)

-- Facts about uniqueFirst (itertools unique over one call's input).

theorem uniqueAux_sublist (xs : List Room) : ∀ seen, List.Sublist (uniqueAux xs seen) xs := by
  induction xs with
  | nil => intro seen; exact List.Sublist.refl []
  | cons x xs ih =>
    intro seen
    rw [uniqueAux]
    by_cases h : x ∈ seen
    · rw [if_pos h]; exact List.Sublist.cons x (ih seen)
    · rw [if_neg h]; exact List.Sublist.cons₂ x (ih (x :: seen))

theorem mem_uniqueAux_not_seen (xs : List Room) :
    ∀ seen y, y ∈ uniqueAux xs seen → y ∉ seen := by
  induction xs with
  | nil => intro seen y hy; simp [uniqueAux] at hy
  | cons x xs ih =>
    intro seen y hy
    rw [uniqueAux] at hy
    by_cases h : x ∈ seen
    · rw [if_pos h] at hy
      exact ih seen y hy
    · rw [if_neg h] at hy
      rcases List.mem_cons.mp hy with rfl | hy
      · exact h
      · have := ih (x :: seen) y hy
        exact fun hmem => this (List.mem_cons_of_mem x hmem)

theorem uniqueAux_nodup (xs : List Room) : ∀ seen, (uniqueAux xs seen).Nodup := by
  induction xs with
  | nil => intro seen; simp [uniqueAux]
  | cons x xs ih =>
    intro seen
    rw [uniqueAux]
    by_cases h : x ∈ seen
    · rw [if_pos h]; exact ih seen
    · rw [if_neg h, List.nodup_cons]
      refine ⟨fun hmem => ?_, ih (x :: seen)⟩
      exact (mem_uniqueAux_not_seen xs (x :: seen) x hmem) (List.mem_cons_self x seen)

theorem uniqueAux_congr (xs : List Room) :
    ∀ s₁ s₂, (∀ y, y ∈ s₁ ↔ y ∈ s₂) → uniqueAux xs s₁ = uniqueAux xs s₂ := by
  induction xs with
  | nil => intro s₁ s₂ _; rfl
  | cons x xs ih =>
    intro s₁ s₂ hs
    rw [uniqueAux, uniqueAux]
    by_cases h : x ∈ s₁
    · rw [if_pos h, if_pos ((hs x).mp h)]
      exact ih s₁ s₂ hs
    · rw [if_neg h, if_neg (fun hx => h ((hs x).mpr hx))]
      have hcons : ∀ y, y ∈ x :: s₁ ↔ y ∈ x :: s₂ := by
        intro y; simp only [List.mem_cons]; exact or_congr Iff.rfl (hs y)
      rw [ih (x :: s₁) (x :: s₂) hcons]

theorem uniqueAux_filter (xs : List Room) :
    ∀ seen a, uniqueAux (xs.filter (fun y => y ≠ a)) seen = uniqueAux xs (a :: seen) := by
  induction xs with
  | nil => intro seen a; rfl
  | cons x xs ih =>
    intro seen a
    by_cases hxa : x = a
    · subst hxa
      rw [List.filter_cons, if_neg (by simp), uniqueAux,
        if_pos (List.mem_cons_self x seen)]
      exact ih seen x
    · rw [List.filter_cons, if_pos (by simp [hxa]), uniqueAux, uniqueAux]
      by_cases hx : x ∈ seen
      · rw [if_pos hx, if_pos (List.mem_cons_of_mem a hx)]
        exact ih seen a
      · have hx' : x ∉ a :: seen := by
          rw [List.mem_cons]; exact fun hor => hor.elim hxa hx
        rw [if_neg hx, if_neg hx', ih (x :: seen) a]
        refine congrArg _ (uniqueAux_congr xs _ _ ?_)
        intro y; simp only [List.mem_cons]; tauto

theorem uniqueFirst_cons (x : Room) (xs : List Room) :
    uniqueFirst (x :: xs) = x :: uniqueFirst (xs.filter (fun y => y ≠ x)) := by
  show uniqueAux (x :: xs) [] = x :: uniqueAux (xs.filter (fun y => y ≠ x)) []
  rw [uniqueAux_filter xs [] x, uniqueAux, if_neg (List.not_mem_nil x)]

theorem uniqueFirst_nodup (l : List Room) : (uniqueFirst l).Nodup :=
  uniqueAux_nodup l []

theorem uniqueFirst_sublist (l : List Room) : List.Sublist (uniqueFirst l) l :=
  uniqueAux_sublist l []

theorem mem_uniqueAux_of_mem (xs : List Room) :
    ∀ seen y, y ∈ xs → y ∈ uniqueAux xs seen ∨ y ∈ seen := by
  induction xs with
  | nil => intro seen y hy; exact absurd hy (List.not_mem_nil y)
  | cons x xs ih =>
    intro seen y hy
    rw [uniqueAux]
    by_cases h : x ∈ seen
    · rw [if_pos h]
      rcases List.mem_cons.mp hy with rfl | hy'
      · right; exact h
      · exact ih seen y hy'
    · rw [if_neg h]
      rcases List.mem_cons.mp hy with rfl | hy'
      · left; exact List.mem_cons_self _ _
      · rcases ih (x :: seen) y hy' with hin | hin
        · left; exact List.mem_cons_of_mem _ hin
        · rcases List.mem_cons.mp hin with rfl | hin2
          · left; exact List.mem_cons_self _ _
          · right; exact hin2

theorem uniqueFirst_mem_iff (l : List Room) (y : Room) : y ∈ uniqueFirst l ↔ y ∈ l := by
  constructor
  · intro h; exact (uniqueFirst_sublist l).subset h
  · intro h
    rcases mem_uniqueAux_of_mem l [] y h with hin | hin
    · exact hin
    · exact absurd hin (List.not_mem_nil y)

-- Claim C10.

/-- C10: chaining `bin(b1).bin(b2)` on an Operators builder equals `bin(b2)`
alone — the second call replaces the attached frames — and the terminal emit
hands the adapter a binary-event packet whose frame count is `b2.length`
together with exactly `b2` as the out-of-band frames. -/
theorem C10_bin_replaces (o : Operators) (b1 b2 : Frames) (ev : String) (d : Value) :
    (o.bin b1).bin b2 = o.bin b2
    ∧ ((o.bin b1).bin b2).get_packet ev d = PacketOut.binEvent o.ns ev d b2.length
    ∧ ((o.bin b1).bin b2).emit ev d
        = (PacketOut.binEvent o.ns ev d b2.length, some b2, o.opts) :=
  ⟨rfl, rfl, rfl⟩

-- Claim C2.

/-- C2 counterexample: chaining `to(["a"]).to(["a"])` leaves the room "a" in
the target list twice — the dedup of `unique()` is per call only, so the
rooms list is not duplicate-free, contradicting the claim that a room passed
to two separate chained calls appears at most once. -/
theorem C2_duplicate_across_calls :
    (((Operators.new "/" 0).to ["a"]).to ["a"]).opts.rooms = ["a", "a"]
    ∧ ¬ (((Operators.new "/" 0).to ["a"]).to ["a"]).opts.rooms.Nodup :=
  ⟨rfl, by decide⟩

/-- C2 (amended): each single `to(...)`/`except(...)` call deduplicates within
its own argument, keeping the first occurrence of each room in the argument's
order and appending the result to the rooms added by earlier calls; rooms
already added by earlier chained calls are not deduplicated against.  The
per-call dedup `uniqueFirst` is duplicate-free, is a subsequence of the input
(so it preserves the input's order), keeps exactly the input's members, and
keeps first occurrences (`uniqueFirst (x :: xs)` is `x` followed by the dedup
of the tail purged of `x`). -/
theorem C2_to_except_dedup_per_call (o : Operators) (l : List Room) :
    (o.to l).opts.rooms = o.opts.rooms ++ uniqueFirst l
    ∧ (o.except l).opts.except = o.opts.except ++ uniqueFirst l
    ∧ (uniqueFirst l).Nodup
    ∧ List.Sublist (uniqueFirst l) l
    ∧ (∀ y, y ∈ uniqueFirst l ↔ y ∈ l)
    ∧ (∀ (x : Room) (xs : List Room),
        uniqueFirst (x :: xs) = x :: uniqueFirst (xs.filter (fun y => y ≠ x))) :=
  ⟨rfl, rfl, uniqueFirst_nodup l, uniqueFirst_sublist l, uniqueFirst_mem_iff l,
    uniqueFirst_cons⟩

-- Claim C1.

/-- C1: on a fresh connection, a `send_with_ack` call whose ack never resolves
before the deadline returns the Timeout error, but the pending-ack entry for
the issued id (1) is still in the connection's `ack_message` table after the
call returns — the code never removes it on the timeout path, contradicting
the claim (and matching the leak the spec flags in §9). -/
theorem C1_timeout_leaves_pending_entry :
    (sendWithAck (V := Value) some SocketState.new
        (PacketOut.event "/" "e" Value.null) none none).2.2.2
      = Except.error AckErr.Timeout
    ∧ (sendWithAck (V := Value) some SocketState.new
        (PacketOut.event "/" "e" Value.null) none none).2.1 = 1
    ∧ (1 : Int) ∈ (sendWithAck (V := Value) some SocketState.new
        (PacketOut.event "/" "e" Value.null) none none).1.ackMessage :=
  ⟨rfl, by decide, by decide⟩

-- Claim C3.

/-- C3 counterexample: an inbound event with ack id 1 whose handler completes
successfully returning no payload (`Ack::None`) causes no acknowledgement
packet to be sent at all — the sent list is empty, contradicting the claim
that an ack with an empty-object payload and zero frames is emitted. -/
theorem C3_none_result_sends_nothing :
    messageHandlerCall "/" (fun v : Value => some v)
      (fun _ _ => Except.ok (Ack.None : Ack Value)) (fun r => r)
      Value.null none (some 1) = Except.ok [] :=
  rfl

/-- C3 (amended): for every inbound event carrying an ack id whose handler
completes successfully returning no payload (`Ack::None`), no acknowledgement
packet is sent for that ack id. -/
theorem C3_none_suppresses_ack {P R : Type} (ns : String) (decode : Value → Option P)
    (handler : P → Option Frames → Except Error (Ack R)) (encode : R → Value)
    (v : Value) (p : Option Frames) (i : Int) (param : P)
    (hdec : decode (unwrapSingle v) = some param)
    (hrun : handler param p = Except.ok Ack.None) :
    messageHandlerCall ns decode handler encode v p (some i) = Except.ok [] := by
  simp [messageHandlerCall, dispatchDecoded, hdec, hrun, ackSend]

/-- C3 witness: the amended theorem applied to a concrete handler returning
`Ack::None` on a null payload. -/
theorem C3_none_suppresses_ack_witness :
    (fun v : Value => some v) (unwrapSingle Value.null) = some Value.null
    ∧ (fun (_ : Value) (_ : Option Frames) =>
        (Except.ok Ack.None : Except Error (Ack Value)))
        Value.null none = Except.ok Ack.None
    ∧ messageHandlerCall "/" (fun v : Value => some v)
        (fun _ _ => Except.ok (Ack.None : Ack Value)) (fun r => r)
        Value.null none (some 7) = Except.ok [] :=
  ⟨rfl, rfl,
    C3_none_suppresses_ack "/" (fun v : Value => some v)
      (fun _ _ => Except.ok (Ack.None : Ack Value)) (fun r => r)
      Value.null none 7 Value.null rfl rfl⟩

-- Claim C6.

/-- C6: the payload handed to deserialization by `MessageHandler::call` is the
singleton-unwrapped wire payload: a one-element list payload is unwrapped to
its single element before decoding into the handler's declared shape (in
particular for a scalar declared shape), and every payload that is not a
one-element list is decoded unchanged. -/
theorem C6_singleton_unwrap {P R : Type} (ns : String) (decode : Value → Option P)
    (handler : P → Option Frames → Except Error (Ack R)) (encode : R → Value)
    (p : Option Frames) (i : Option Int) :
    (∀ x : Value, messageHandlerCall ns decode handler encode (Value.arr [x]) p i
        = dispatchDecoded ns decode handler encode x p i)
    ∧ (∀ v : Value, (∀ x, v ≠ Value.arr [x]) →
        messageHandlerCall ns decode handler encode v p i
        = dispatchDecoded ns decode handler encode v p i) := by
  constructor
  · intro x
    have hx : unwrapSingle (Value.arr [x]) = x := by simp [unwrapSingle]
    rw [messageHandlerCall, hx]
  · intro v hv
    have hx : unwrapSingle v = v := by
      cases v with
      | arr l =>
        cases l with
        | nil => simp [unwrapSingle]
        | cons a t =>
          cases t with
          | nil => exact absurd rfl (hv a)
          | cons b t' => simp [unwrapSingle]
      | null => rfl
      | bool b => rfl
      | num n => rfl
      | str s => rfl
      | obj fields => rfl
    rw [messageHandlerCall, hx]

/-- C6 witness: a singleton array payload is decoded as its single element; a
non-list payload is decoded unchanged. -/
theorem C6_singleton_unwrap_witness :
    messageHandlerCall "/" (fun v : Value => some v)
      (fun _ _ => Except.ok (Ack.Data Value.null : Ack Value)) (fun r => r)
      (Value.arr [Value.num 5]) none none
      = dispatchDecoded "/" (fun v : Value => some v)
        (fun _ _ => Except.ok (Ack.Data Value.null : Ack Value)) (fun r => r)
        (Value.num 5) none none
    ∧ messageHandlerCall "/" (fun v : Value => some v)
      (fun _ _ => Except.ok (Ack.Data Value.null : Ack Value)) (fun r => r)
      (Value.num 7) none none
      = dispatchDecoded "/" (fun v : Value => some v)
        (fun _ _ => Except.ok (Ack.Data Value.null : Ack Value)) (fun r => r)
        (Value.num 7) none none :=
  ⟨(C6_singleton_unwrap "/" (fun v : Value => some v)
      (fun _ _ => Except.ok (Ack.Data Value.null : Ack Value)) (fun r => r)
      none none).1 (Value.num 5),
    (C6_singleton_unwrap "/" (fun v : Value => some v)
      (fun _ _ => Except.ok (Ack.Data Value.null : Ack Value)) (fun r => r)
      none none).2 (Value.num 7) (fun _ h => Value.noConfusion h)⟩

-- Claim C7.

/-- C7: for every inbound event carrying an ack id whose handler returns an
error, no acknowledgement packet is sent for that ack id — the spawned task's
`map_ok` only translates `Ok` results, so the sent list is empty. -/
theorem C7_handler_error_no_ack {P R : Type} (ns : String) (decode : Value → Option P)
    (handler : P → Option Frames → Except Error (Ack R)) (encode : R → Value)
    (v : Value) (p : Option Frames) (i : Int) (param : P) (err : Error)
    (hdec : decode (unwrapSingle v) = some param)
    (hrun : handler param p = Except.error err) :
    messageHandlerCall ns decode handler encode v p (some i) = Except.ok [] := by
  simp [messageHandlerCall, dispatchDecoded, hdec, hrun]

/-- C7 witness: a concrete handler propagating an error on an acked event
sends nothing. -/
theorem C7_handler_error_no_ack_witness :
    (fun v : Value => some v) (unwrapSingle Value.null) = some Value.null
    ∧ (fun (_ : Value) (_ : Option Frames) =>
        (Except.error (Error.Handler "boom") : Except Error (Ack Value)))
        Value.null none = Except.error (Error.Handler "boom")
    ∧ messageHandlerCall "/" (fun v : Value => some v)
        (fun _ _ => (Except.error (Error.Handler "boom") : Except Error (Ack Value)))
        (fun r => r) Value.null none (some 3) = Except.ok [] :=
  ⟨rfl, rfl,
    C7_handler_error_no_ack "/" (fun v : Value => some v)
      (fun _ _ => (Except.error (Error.Handler "boom") : Except Error (Ack Value)))
      (fun r => r) Value.null none 3 Value.null (Error.Handler "boom") rfl rfl⟩

-- Claim C8.

/-- C8: dispatching an inbound event (plain or binary) whose event name has no
registered handler returns `Ok(())`, leaves the whole connection state (handler
table, pending-ack table, ack counter) unchanged, and sends no packet. -/
theorem C8_no_handler_no_effect (s : SocketState) (e : String) (d : Value)
    (pkt : BinaryPacket) (a : Option Int) (h : s.handlers.lookup e = none) :
    recvEvent s e d a = (s, Except.ok (), [])
    ∧ recvBinEvent s e pkt a = (s, Except.ok (), []) := by
  constructor
  · rw [recvEvent, h]
  · rw [recvBinEvent, h]

/-- C8 witness: a fresh connection with an empty handler table silently
ignores both event kinds. -/
theorem C8_no_handler_no_effect_witness :
    SocketState.new.handlers.lookup "missing" = none
    ∧ recvEvent SocketState.new "missing" Value.null none
        = (SocketState.new, Except.ok (), [])
    ∧ recvBinEvent SocketState.new "missing" { data := Value.null, bin := [] } none
        = (SocketState.new, Except.ok (), []) :=
  ⟨rfl,
    (C8_no_handler_no_effect SocketState.new "missing" Value.null
      { data := Value.null, bin := [] } none rfl).1,
    (C8_no_handler_no_effect SocketState.new "missing" Value.null
      { data := Value.null, bin := [] } none rfl).2⟩

-- Claim C9.

/-- C9: under the precondition that the inbound packet is one of the four
admissible kinds (plain event, event-ack, binary event, binary-ack), dispatch
never reaches the `unreachable!()` fallback: `recv` is total (returns an
outcome) on admissible packets. -/
theorem C9_dispatch_total_on_admissible (s : SocketState) (p : PacketData)
    (h : p.admissible = true) : (recv s p).isSome = true := by
  cases p with
  | Event e data ack => rfl
  | EventAck data ackId => rfl
  | BinaryEvent e packet ack => rfl
  | BinaryAck packet ackId => rfl
  | Other => exact absurd h (by simp [PacketData.admissible])

/-- C9 witness: an event-ack packet is admissible and dispatch yields an
outcome for it. -/
theorem C9_dispatch_total_witness :
    (PacketData.EventAck Value.null 1).admissible = true
    ∧ (recv SocketState.new (PacketData.EventAck Value.null 1)).isSome = true :=
  ⟨rfl, C9_dispatch_total_on_admissible SocketState.new
    (PacketData.EventAck Value.null 1) rfl⟩


-- Ack id issuance (claims C4 and C5).

theorem wrapI64_eq_self (x : Int) (h1 : -(2 ^ 63) ≤ x) (h2 : x < 2 ^ 63) :
    wrapI64 x = x := by
  have p63 : (2 : Int) ^ 63 = 9223372036854775808 := by norm_num
  have p64 : (2 : Int) ^ 64 = 18446744073709551616 := by norm_num
  rw [wrapI64, p63, p64]
  rw [p63] at h1 h2
  rw [Int.emod_eq_of_lt (by omega) (by omega)]
  omega

theorem issueTrace_spec (n : Nat) :
    ∀ s : SocketState, 0 ≤ s.ackCounter →
    s.ackCounter + (n : Int) < 2 ^ 63 →
    (∀ x ∈ s.ackMessage, x ≤ s.ackCounter) →
    (issueTrace s n).2
      = (List.range n).map (fun (i : Nat) => s.ackCounter + (i : Int) + 1)
    ∧ (issueTrace s n).1.ackCounter = s.ackCounter + (n : Int)
    ∧ (issueTrace s n).1.ackMessage
        = ((List.range n).map (fun (i : Nat) => s.ackCounter + (i : Int) + 1)).reverse
          ++ s.ackMessage
    ∧ (issueTrace s n).1.handlers = s.handlers := by
  induction n with
  | zero =>
    intro s _ _ _
    refine ⟨rfl, by simp [issueTrace], by simp [issueTrace], rfl⟩
  | succ n ih =>
    intro s h0 hb hn
    have hcast : ((n + 1 : Nat) : Int) = (n : Int) + 1 := by push_cast; ring
    rw [hcast] at hb
    have hnn : (0 : Int) ≤ (n : Int) := Int.natCast_nonneg n
    have hwrap : wrapI64 (s.ackCounter + 1) = s.ackCounter + 1 := by
      apply wrapI64_eq_self
      · have : (0 : Int) ≤ (2 : Int) ^ 63 := by positivity
        omega
      · omega
    have hnotin : s.ackCounter + 1 ∉ s.ackMessage := by
      intro hmem
      have := hn _ hmem
      omega
    have hstate : (sendWithAck (V := Value) some s
        (PacketOut.event "/" "e" Value.null) none none).1
        = { handlers := s.handlers, ackMessage := (s.ackCounter + 1) :: s.ackMessage,
            ackCounter := s.ackCounter + 1 } := by
      simp only [sendWithAck, hwrap, insertKey, if_neg hnotin]
    have hid : (sendWithAck (V := Value) some s
        (PacketOut.event "/" "e" Value.null) none none).2.1 = s.ackCounter + 1 := by
      simp only [sendWithAck, hwrap]
    set s' : SocketState :=
      { handlers := s.handlers, ackMessage := (s.ackCounter + 1) :: s.ackMessage,
        ackCounter := s.ackCounter + 1 } with hs'
    have ihs := ih s' (by rw [hs']; dsimp only; omega)
      (by rw [hs']; dsimp only; omega)
      (by
        intro x hx
        rw [hs'] at hx ⊢
        dsimp only at hx ⊢
        rcases List.mem_cons.mp hx with rfl | hx'
        · omega
        · have := hn _ hx'
          omega)
    obtain ⟨ih1, ih2, ih3, ih4⟩ := ihs
    have hunfold : issueTrace s (n + 1)
        = ((issueTrace s' n).1, (s.ackCounter + 1) :: (issueTrace s' n).2) := by
      show ((issueTrace (sendWithAck (V := Value) some s
          (PacketOut.event "/" "e" Value.null) none none).1 n).1,
        (sendWithAck (V := Value) some s
          (PacketOut.event "/" "e" Value.null) none none).2.1
          :: (issueTrace (sendWithAck (V := Value) some s
            (PacketOut.event "/" "e" Value.null) none none).1 n).2) = _
      rw [hstate, hid]
    have hmapshift : (List.range (n + 1)).map
          (fun (i : Nat) => s.ackCounter + (i : Int) + 1)
        = (s.ackCounter + 1)
          :: (List.range n).map (fun (i : Nat) => s'.ackCounter + (i : Int) + 1) := by
      rw [List.range_succ_eq_map, List.map_cons, List.map_map]
      have hf : ((fun (i : Nat) => s.ackCounter + (i : Int) + 1) ∘ Nat.succ)
          = fun (i : Nat) => s'.ackCounter + (i : Int) + 1 := by
        funext i
        rw [hs']
        simp only [Function.comp]
        push_cast
        ring
      rw [hf]
      norm_num
    refine ⟨?_, ?_, ?_, ?_⟩
    · rw [hunfold, hmapshift]
      dsimp only
      rw [ih1]
    · rw [hunfold]
      dsimp only
      rw [ih2, hs']
      dsimp only
      push_cast
      ring
    · rw [hunfold]
      dsimp only
      rw [ih3, hmapshift, List.reverse_cons, List.append_assoc, hs']
      dsimp only
      rw [List.singleton_append]
    · rw [hunfold]
      dsimp only
      rw [ih4, hs']

-- Claim C4.

/-- C4: on a fresh connection, the sequence of ack ids issued by `n`
successive `send_with_ack` calls (for any `n` below the i64 wrap point) is
exactly 1, 2, …, n: the first issued id is 1, the sequence is strictly
increasing, and the ids registered in the pending-ack table are pairwise
distinct. -/
theorem C4_ack_ids_strictly_increasing (n : Nat) (hpos : 0 < n)
    (hn : (n : Int) < 2 ^ 63) :
    (issueTrace SocketState.new n).2
      = (List.range n).map (fun (i : Nat) => (i : Int) + 1)
    ∧ List.Pairwise (· < ·) (issueTrace SocketState.new n).2
    ∧ (issueTrace SocketState.new n).2.head? = some 1
    ∧ (issueTrace SocketState.new n).1.ackMessage.Nodup := by
  have hspec := issueTrace_spec n SocketState.new (by rw [SocketState.new])
    (by rw [SocketState.new]; dsimp only; omega)
    (by intro x hx; exact absurd hx (List.not_mem_nil x))
  obtain ⟨h1, _, h3, _⟩ := hspec
  have hzero : (fun (i : Nat) => SocketState.new.ackCounter + (i : Int) + 1)
      = fun (i : Nat) => (i : Int) + 1 := by
    funext i
    rw [SocketState.new]
    dsimp only
    ring
  rw [hzero] at h1 h3
  have hpair : List.Pairwise (· < ·)
      ((List.range n).map (fun (i : Nat) => (i : Int) + 1)) := by
    rw [List.pairwise_map]
    apply List.Pairwise.imp ?_ (List.pairwise_lt_range n)
    intro a b hab
    have : (a : Int) < (b : Int) := by exact_mod_cast hab
    omega
  refine ⟨h1, by rw [h1]; exact hpair, ?_, ?_⟩
  · rw [h1]
    cases n with
    | zero => exact absurd hpos (by omega)
    | succ m =>
      rw [List.range_succ_eq_map, List.map_cons, List.head?_cons]
      norm_num
  · rw [h3, show SocketState.new.ackMessage = ([] : List Int) from rfl,
      List.append_nil, List.nodup_reverse]
    apply List.Pairwise.imp ?_ hpair
    intro a b hab
    omega

/-- C4 witness: three calls on a fresh connection issue ids 1, 2, 3. -/
theorem C4_ack_ids_witness :
    (0 < 3 ∧ ((3 : Nat) : Int) < 2 ^ 63)
    ∧ ((issueTrace SocketState.new 3).2
        = (List.range 3).map (fun (i : Nat) => (i : Int) + 1)
      ∧ List.Pairwise (· < ·) (issueTrace SocketState.new 3).2
      ∧ (issueTrace SocketState.new 3).2.head? = some 1
      ∧ (issueTrace SocketState.new 3).1.ackMessage.Nodup) :=
  ⟨⟨by decide, by decide⟩, C4_ack_ids_strictly_increasing 3 (by decide) (by decide)⟩

-- Claim C5.

/-- C5: for an inbound event-ack or binary-ack with id `i` on a connection
whose pending-ack table is duplicate-free: if `i` is pending, the entry is
removed (it is gone from the table, all other ids are untouched, handler table
and counter unchanged) and the payload — plus frames for the binary variant —
is delivered to `i`'s waiter, returning success; if `i` is not pending, the
packet is ignored, returning success with the state unchanged and nothing
delivered. -/
theorem C5_recv_ack_resolution (s : SocketState) (d : Value) (pkt : BinaryPacket)
    (i : Int) (hnodup : s.ackMessage.Nodup) :
    (i ∈ s.ackMessage →
      recvAck s d i = ({ s with ackMessage := s.ackMessage.erase i }, Except.ok (),
          some { ackId := i, data := d, bin := none })
      ∧ recvBinAck s pkt i = ({ s with ackMessage := s.ackMessage.erase i },
          Except.ok (), some { ackId := i, data := pkt.data, bin := some pkt.bin })
      ∧ i ∉ (recvAck s d i).1.ackMessage
      ∧ (∀ j, j ≠ i → ((j ∈ (recvAck s d i).1.ackMessage) ↔ j ∈ s.ackMessage))
      ∧ (recvAck s d i).1.handlers = s.handlers
      ∧ (recvAck s d i).1.ackCounter = s.ackCounter)
    ∧ (i ∉ s.ackMessage →
      recvAck s d i = (s, Except.ok (), none)
      ∧ recvBinAck s pkt i = (s, Except.ok (), none)) := by
  constructor
  · intro hin
    have e1 : recvAck s d i = ({ s with ackMessage := s.ackMessage.erase i },
        Except.ok (), some { ackId := i, data := d, bin := none }) := by
      rw [recvAck, if_pos hin]
    have e2 : recvBinAck s pkt i = ({ s with ackMessage := s.ackMessage.erase i },
        Except.ok (), some { ackId := i, data := pkt.data, bin := some pkt.bin }) := by
      rw [recvBinAck, if_pos hin]
    refine ⟨e1, e2, ?_, ?_, ?_, ?_⟩
    · rw [e1]
      exact hnodup.not_mem_erase
    · intro j hj
      rw [e1]
      exact List.mem_erase_of_ne hj
    · rw [e1]
    · rw [e1]
  · intro hout
    constructor
    · rw [recvAck, if_neg hout]
    · rw [recvBinAck, if_neg hout]

/-- C5 witness: on a table holding ids 1 and 2, an ack for id 1 removes it and
delivers its payload, and an ack for the absent id 7 is ignored. -/
theorem C5_recv_ack_resolution_witness :
    ([1, 2] : List Int).Nodup
    ∧ recvAck { handlers := [], ackMessage := [1, 2], ackCounter := 5 } Value.null 1
      = ({ handlers := [], ackMessage := [2], ackCounter := 5 }, Except.ok (),
          some { ackId := 1, data := Value.null, bin := none })
    ∧ recvAck { handlers := [], ackMessage := [1, 2], ackCounter := 5 } Value.null 7
      = ({ handlers := [], ackMessage := [1, 2], ackCounter := 5 },
          Except.ok (), none) :=
  ⟨by decide,
    ((C5_recv_ack_resolution { handlers := [], ackMessage := [1, 2], ackCounter := 5 }
      Value.null { data := Value.null, bin := [] } 1 (by decide)).1
        (by decide)).1,
    ((C5_recv_ack_resolution { handlers := [], ackMessage := [1, 2], ackCounter := 5 }
      Value.null { data := Value.null, bin := [] } 7 (by decide)).2
        (by decide)).1⟩
